import Mathlib

/-!
Regional mode for private endpoints: read, update, import.

A shallow embedding of
`mongodbatlas/resource_mongodbatlas_private_endpoint_regional_mode.go`.

* Go pointers are `Option`s; dereferencing a nil pointer is a `GoResult.panicked`.
* The Atlas client is a record of answer functions: the k-th call of the status
  query `GetRegionalizedPrivateEndpointSetting` for a project, and the mutation
  call `UpdateRegionalizedPrivateEndpointSetting`.
* Durations are those of Go: natural numbers of nanoseconds.
* `decodeStateID` and `encodeStateID` live in another file of the provider and
  are taken as parameters.
* `resource.StateChangeConf.WaitForStateContext` belongs to the plugin SDK; the
  wait is modelled from the specification of the poll executor.
-/

namespace RegionalMode

/-! Go values -/

/-- What running a Go function gives: a value, or a run-time panic. -/
inductive GoResult (α : Type) where
  | panicked : GoResult α
  | returned : α → GoResult α
  deriving DecidableEq, Repr

/-- The format strings handed to `fmt.Errorf` in this file, by constant name;
`importRegionalMode` is the literal of line 106. -/
inductive Format where
  | errorPrivateEndpointRegionalModeRead
  | errorPrivateLinkEndpointsSetting
  | errorPrivateLinkEndpointsDelete
  | importRegionalMode
  deriving DecidableEq, Repr

/-- Go `error` values met in this file. `remote` is an error of the Atlas
client, `errorf` a `fmt.Errorf` with its format and arguments kept apart, and
the last three are the errors with which a wait reports a timeout, a status in
neither state set and a cancelled context. -/
inductive GoError where
  | remote : String → GoError
  | schema : String → GoError
  | errorf : Format → List String → GoError → GoError
  | timedOut : Nat → GoError
  | unexpectedState : String → GoError
  | cancelled : GoError
  deriving DecidableEq, Repr

/-- The type `diag.Severity`. -/
inductive Severity where
  | Error
  | Warning
  deriving DecidableEq, Repr

/-- The type `diag.Diagnostic`: its severity and the error it reports. -/
structure Diagnostic where
  severity : Severity
  cause : GoError
  deriving DecidableEq, Repr

/-- The type `diag.Diagnostics`; `nil` is the empty list. -/
abbrev Diagnostics := List Diagnostic

/-- The function `diag.FromErr` on a non-nil error: one diagnostic of severity
error that reports it. -/
def diagFromErr (err : GoError) : Diagnostics := [⟨.Error, err⟩]

/-! The Atlas client -/

/-- The type `matlas.RegionalizedPrivateEndpointSetting`. -/
structure RegionalizedPrivateEndpointSetting where
  Enabled : Bool
  deriving DecidableEq, Repr

/-- The type `matlas.Response`, which embeds the HTTP response; only the status
code is read in this file. -/
structure Response where
  StatusCode : Nat
  deriving DecidableEq, Repr

/-- The three results of a call of the Atlas client: `(setting, resp, err)`. -/
structure CallResult where
  setting : Option RegionalizedPrivateEndpointSetting
  resp : Option Response
  err : Option GoError
  deriving DecidableEq, Repr

/-- The service `conn.PrivateEndpoints`: the answer to the k-th status query for
a project, and the answer to the mutation call. -/
structure PrivateEndpointsService where
  GetRegionalizedPrivateEndpointSetting : Nat → String → CallResult
  UpdateRegionalizedPrivateEndpointSetting : String → Bool → CallResult

/-- The constant `http.StatusNotFound`. -/
def StatusNotFound : Nat := 404

/-! Resource data -/

/-- A value stored under an attribute of the schema. -/
inductive AttrValue where
  | str : String → AttrValue
  | bool : Bool → AttrValue
  deriving DecidableEq, Repr

/-- The type `schema.ResourceData`: the identifier and the attributes
`project_id` and `enabled` of the schema of lines 28-38. -/
structure ResourceData where
  id : String
  project_id : Option String
  enabled : Option Bool
  deriving DecidableEq, Repr

/-- The method `d.Id()`. -/
def ResourceData.Id (d : ResourceData) : String := d.id

/-- The method `d.SetId(v)`. -/
def ResourceData.SetId (d : ResourceData) (v : String) : ResourceData :=
  { d with id := v }

/-- The method `d.Set(key, value)` on the schema of this resource: a string
under `project_id` and a boolean under `enabled` are stored, anything else is
an error. -/
def ResourceData.Set (d : ResourceData) (key : String) (v : AttrValue) :
    ResourceData × Option GoError :=
  match v with
  | .str s =>
    if key = "project_id" then ({ d with project_id := some s }, none)
    else (d, some (.schema key))
  | .bool b =>
    if key = "enabled" then ({ d with enabled := some b }, none)
    else (d, some (.schema key))

/-- The expression `d.Get("enabled").(bool)`: the stored value, or the zero
value `false`. -/
def ResourceData.GetEnabled (d : ResourceData) : Bool := d.enabled.getD false

/-- A Go `map[string]string`, as the list of its entries. -/
abbrev StringMap := List (String × String)

/-- The index expression `m[key]`: the value, or the zero value `""`. -/
def StringMap.index (m : StringMap) (key : String) : String :=
  match m.lookup key with
  | some v => v
  | none => ""

/-! Read -/

/-- The function `resourceMongoDBAtlasPrivateEndpointRegionalModeRead`
(lines 42-63): the resource data after the call and the diagnostics. -/
def resourceMongoDBAtlasPrivateEndpointRegionalModeRead
    (decodeStateID : String → StringMap) (d : ResourceData)
    (conn : PrivateEndpointsService) : GoResult (ResourceData × Diagnostics) :=
  let ids := decodeStateID d.Id
  let projectID := StringMap.index ids "project_id"
  let r := conn.GetRegionalizedPrivateEndpointSetting 0 projectID
  match r.err with
  | some err =>
    match r.resp with
    | some resp =>
      if resp.StatusCode = StatusNotFound then
        .returned (d.SetId "", [])
      else
        .returned (d, diagFromErr
          (.errorf .errorPrivateEndpointRegionalModeRead [projectID] err))
    | none =>
      .returned (d, diagFromErr
        (.errorf .errorPrivateEndpointRegionalModeRead [projectID] err))
  | none =>
    match r.setting with
    | none => .panicked
    | some setting =>
      match d.Set "enabled" (.bool setting.Enabled) with
      | (d1, some err) =>
        .returned (d1, diagFromErr
          (.errorf .errorPrivateLinkEndpointsSetting ["enabled", projectID] err))
      | (d1, none) => .returned (d1, [])

/-! The refresh callback -/

/-- A Go `interface{}` value that the refresh callback hands to the wait: the
string literal of line 129 or the setting pointer of line 135. A nil interface
is `none : Option Payload`. -/
inductive Payload where
  | str : String → Payload
  | setting : Option RegionalizedPrivateEndpointSetting → Payload
  deriving DecidableEq, Repr

/-- The three results of a `resource.StateRefreshFunc`. -/
structure RefreshResult where
  result : Option Payload
  state : String
  err : Option GoError
  deriving DecidableEq, Repr

/-- The function `resourcePrivateEndpointRegionalModeRefreshFunc`
(lines 124-137); the k-th invocation of the closure issues the k-th status
query. -/
def resourcePrivateEndpointRegionalModeRefreshFunc
    (client : PrivateEndpointsService) (projectID : String) (k : Nat) :
    GoResult RefreshResult :=
  let r := client.GetRegionalizedPrivateEndpointSetting k projectID
  match r.err with
  | some err =>
    match r.resp with
    | none => .panicked
    | some resp =>
      if resp.StatusCode = 404 then
        .returned ⟨some (.str ""), "DELETED", none⟩
      else
        .returned ⟨none, "REJECTED", some err⟩
  | none => .returned ⟨some (.setting r.setting), "Ok", none⟩

/-! The wait -/

/-- The constant `time.Second`, in nanoseconds. -/
def Second : Nat := 1000000000

/-- The constant `time.Hour`, in nanoseconds. -/
def Hour : Nat := 3600 * Second

/-- A `context.Context`, as far as a wait sees it: the time on the clock of the wait
at which the cancellation signal is raised, if it ever is. -/
structure Context where
  doneAt : Option Nat
  deriving DecidableEq, Repr

/-- Whether the cancellation signal has been raised by time `t`. -/
def Context.doneBy (ctx : Context) (t : Nat) : Bool :=
  match ctx.doneAt with
  | some c => decide (c ≤ t)
  | none => false

/-- The fields of `resource.StateChangeConf` that Update sets: the PollSpec of
the specification together with its refresh callback. -/
structure StateChangeConf where
  Pending : List String
  Target : List String
  Refresh : Nat → GoResult RefreshResult
  Timeout : Nat
  MinTimeout : Nat
  Delay : Nat

/-- The RefreshOutcome of the specification. -/
inductive RefreshOutcome where
  | Ongoing : String → Option Payload → RefreshOutcome
  | Terminal : String → Option Payload → RefreshOutcome
  | NotFoundAsDeleted : RefreshOutcome
  | Failure : GoError → RefreshOutcome
  deriving DecidableEq, Repr

/-- The PollOutcome of the specification. -/
inductive PollOutcome where
  | Succeeded : Option Payload → PollOutcome
  | TimedOut : Nat → PollOutcome
  | Failed : GoError → PollOutcome
  | Cancelled : PollOutcome
  deriving DecidableEq, Repr

/-- Modelled from the spec: the state classifier inside
`resource.StateChangeConf.WaitForStateContext` of the plugin SDK, which is not
part of the sources of this repository. It follows rules 2 to 5 of the
StateClassifier of the specification on what the refresh callback returned: an error
is a failure with that cause, a status of the pending set is ongoing, a status
of the target set is terminal, any other status is the failure
`unexpectedState`. Rule 1 (HTTP 404) is taken by the callback of this file,
which answers a 404 with the target state "DELETED" and no error, so it reaches
the classifier as a terminal state. -/
def classify (conf : StateChangeConf) (r : RefreshResult) : RefreshOutcome :=
  match r.err with
  | some cause => .Failure cause
  | none =>
    if r.state ∈ conf.Pending then .Ongoing r.state r.result
    else if r.state ∈ conf.Target then .Terminal r.state r.result
    else .Failure (.unexpectedState r.state)

/-- How a suspension of the wait ends. -/
inductive Suspension where
  | resumed : Nat → Suspension
  | cancelled : Nat → Suspension
  deriving DecidableEq, Repr

/-- Modelled from the spec: a suspension point of the poll executor. The wait
sleeps from `now` for `d`; a cancellation signal raised by the end of the sleep
is observed, and the wait leaves the sleep when it is raised (at once if it was
raised before). -/
def suspend (ctx : Context) (now d : Nat) : Suspension :=
  match ctx.doneAt with
  | some c => if c ≤ now + d then .cancelled (max now c) else .resumed (now + d)
  | none => .resumed (now + d)

/-- What a wait did: how it ended (a PollOutcome, or the panic of its refresh
callback), the number of refresh invocations, the time spent in the initial
delay, the time spent after polling started, and the number of inter-poll
sleeps begun. The clock is advanced by the suspensions only. -/
structure WaitTrace where
  result : GoResult PollOutcome
  calls : Nat
  delayed : Nat
  polled : Nat
  sleeps : Nat
  deriving DecidableEq, Repr

/-- Modelled from the spec: the POLLING loop of the poll executor (4.2 step 2),
not part of the sources of this repository. It invokes refresh and classifies the
answer: not-found-as-deleted or terminal is Succeeded with the payload, a
failure is Failed with its cause at once, and ongoing is TimedOut with the
elapsed time when `now - start ≥ timeout`, else a sleep of the minimum interval
(Cancelled if the signal is observed there) and another round. `fuel` bounds the
number of rounds; `none` is a loop that has not ended within it. A panic of the
callback ends the wait. -/
def pollLoop (conf : StateChangeConf) (ctx : Context) (start : Nat) :
    Nat → Nat → Nat → Option WaitTrace
  | 0, _, _ => none
  | fuel + 1, calls, now =>
    match conf.Refresh calls with
    | .panicked => some ⟨.panicked, calls + 1, start, now - start, calls⟩
    | .returned r =>
      match classify conf r with
      | .NotFoundAsDeleted =>
        some ⟨.returned (.Succeeded r.result), calls + 1, start, now - start, calls⟩
      | .Terminal _ payload =>
        some ⟨.returned (.Succeeded payload), calls + 1, start, now - start, calls⟩
      | .Failure cause =>
        some ⟨.returned (.Failed cause), calls + 1, start, now - start, calls⟩
      | .Ongoing _ _ =>
        if conf.Timeout ≤ now - start then
          some ⟨.returned (.TimedOut (now - start)), calls + 1, start, now - start, calls⟩
        else
          match suspend ctx now conf.MinTimeout with
          | .cancelled t =>
            some ⟨.returned .Cancelled, calls + 1, start, t - start, calls + 1⟩
          | .resumed t => pollLoop conf ctx start fuel (calls + 1) t

/-- The number of rounds after which a wait with a positive minimum interval
has timed out at the latest. -/
def roundsFor (conf : StateChangeConf) : Nat := conf.Timeout / conf.MinTimeout + 2

/-- Modelled from the spec: the method `WaitForStateContext` of
`resource.StateChangeConf` (plugin SDK, not part of the sources of this repository),
as the poll executor of 4.2: INIT suspends for the initial delay (Cancelled if
the signal is observed there, without any poll), records the start time and
enters POLLING. -/
def WaitForStateContext (conf : StateChangeConf) (ctx : Context) : Option WaitTrace :=
  match suspend ctx 0 conf.Delay with
  | .cancelled t => some ⟨.returned .Cancelled, 0, t, 0, 0⟩
  | .resumed t => pollLoop conf ctx t (roundsFor conf) 0 t

/-- Modelled from the spec: the error result of `WaitForStateContext`. Only
Succeeded is a nil error; the other outcomes surface as errors. -/
def PollOutcome.err : PollOutcome → Option GoError
  | .Succeeded _ => none
  | .TimedOut elapsed => some (.timedOut elapsed)
  | .Failed cause => some cause
  | .Cancelled => some .cancelled

/-! Update -/

/-- The `stateConf` that Update builds (lines 83-90). -/
def updateStateConf (conn : PrivateEndpointsService) (projectID : String) :
    StateChangeConf where
  Pending := ["DELETING"]
  Target := ["DELETED", "FAILED"]
  Refresh := resourcePrivateEndpointRegionalModeRefreshFunc conn projectID
  Timeout := 1 * Hour
  MinTimeout := 5 * Second
  Delay := 3 * Second

/-- What an Update did: its diagnostics (or a panic), and the trace of the wait
it started, if it started one. -/
structure UpdateTrace where
  result : GoResult Diagnostics
  wait : Option WaitTrace
  deriving DecidableEq, Repr

/-- The number of status queries an Update issued. -/
def UpdateTrace.statusQueries (u : UpdateTrace) : Nat :=
  match u.wait with
  | some w => w.calls
  | none => 0

/-- The function `resourceMongoDBAtlasPrivateEndpointRegionalModeUpdate`
(lines 65-98). `none` is a wait that has not ended within its rounds. -/
def resourceMongoDBAtlasPrivateEndpointRegionalModeUpdate
    (decodeStateID : String → StringMap) (ctx : Context) (d : ResourceData)
    (conn : PrivateEndpointsService) : Option UpdateTrace :=
  let ids := decodeStateID d.Id
  let projectID := StringMap.index ids "project_id"
  let enabled := d.GetEnabled
  let r := conn.UpdateRegionalizedPrivateEndpointSetting projectID enabled
  match r.err with
  | some err =>
    match r.resp with
    | none => some ⟨.panicked, none⟩
    | some resp =>
      if resp.StatusCode = 404 then
        some ⟨.returned [], none⟩
      else
        some ⟨.returned (diagFromErr
          (.errorf .errorPrivateLinkEndpointsDelete [projectID] err)), none⟩
  | none =>
    let stateConf := updateStateConf conn projectID
    match WaitForStateContext stateConf ctx with
    | none => none
    | some w =>
      match w.result with
      | .panicked => some ⟨.panicked, some w⟩
      | .returned outcome =>
        match outcome.err with
        | some err =>
          some ⟨.returned (diagFromErr
            (.errorf .errorPrivateLinkEndpointsDelete [projectID] err)), some w⟩
        | none => some ⟨.returned [], some w⟩

/-! Import -/

/-- The function `resourceMongoDBAtlasPrivateEndpointRegionalModeImportState`
(lines 100-122): the states returned and the error. An error of `d.Set` is
logged only. -/
def resourceMongoDBAtlasPrivateEndpointRegionalModeImportState
    (encodeStateID : StringMap → String) (d : ResourceData)
    (conn : PrivateEndpointsService) : GoResult (List ResourceData × Option GoError) :=
  let projectID := d.Id
  let r := conn.GetRegionalizedPrivateEndpointSetting 0 projectID
  match r.err with
  | some err => .returned ([], some (.errorf .importRegionalMode [projectID] err))
  | none =>
    let d1 := (d.Set "project_id" (.str projectID)).1
    match r.setting with
    | none => .panicked
    | some setting =>
      let d2 := (d1.Set "enabled" (.bool setting.Enabled)).1
      .returned ([d2.SetId (encodeStateID [("project_id", projectID)])], none)

/-! The resource definition -/

/-- The functions that the resource definition names, by their Go identifiers.
`resourceMongoDBAtlasPrivateLinkEndpointImportState` is the import of the
private link endpoint resource, declared in another file of the provider. -/
inductive HookName where
  | resourceMongoDBAtlasPrivateEndpointRegionalModeRead
  | resourceMongoDBAtlasPrivateEndpointRegionalModeUpdate
  | resourceMongoDBAtlasPrivateEndpointRegionalModeImportState
  | resourceMongoDBAtlasPrivateLinkEndpointImportState
  deriving DecidableEq, Repr

/-- The type `schema.ResourceImporter`. -/
structure ResourceImporter where
  StateContext : HookName
  deriving DecidableEq, Repr

/-- The value type of a schema field. -/
inductive ValueType where
  | TypeString
  | TypeBool
  deriving DecidableEq, Repr

/-- The type `schema.Schema`, with the fields set in this file (`Kind` is the
field `Type`). -/
structure Schema where
  Kind : ValueType
  Required : Bool
  ForceNew : Bool
  deriving DecidableEq, Repr

/-- The type `schema.Resource`, with the fields set in this file. -/
structure Resource where
  ReadContext : HookName
  UpdateContext : HookName
  Importer : ResourceImporter
  Schema : List (String × Schema)
  deriving DecidableEq, Repr

/-- The function `resourceMongoDBAtlasPrivateEndpointRegionalMode`
(lines 21-40). -/
def resourceMongoDBAtlasPrivateEndpointRegionalMode : Resource where
  ReadContext := .resourceMongoDBAtlasPrivateEndpointRegionalModeRead
  UpdateContext := .resourceMongoDBAtlasPrivateEndpointRegionalModeUpdate
  Importer := { StateContext := .resourceMongoDBAtlasPrivateLinkEndpointImportState }
  Schema := [
    ("project_id", { Kind := .TypeString, Required := true, ForceNew := true }),
    ("enabled", { Kind := .TypeBool, Required := true, ForceNew := false })]

/-! Inputs used in the worked cases -/

/-- A successful answer of the Atlas client carrying a setting (HTTP 200). -/
def answerOk (enabled : Bool) : CallResult :=
  ⟨some ⟨enabled⟩, some ⟨200⟩, none⟩

/-- A failed answer of the Atlas client with an HTTP response of the given
status. -/
def answerStatus (code : Nat) (msg : String) : CallResult :=
  ⟨none, some ⟨code⟩, some (.remote msg)⟩

/-- A failed answer of the Atlas client without any HTTP response, as for a
network failure or the argument error of an empty project identifier. -/
def answerNoResponse (msg : String) : CallResult :=
  ⟨none, none, some (.remote msg)⟩

/-- A client that answers the k-th status query with `get k` and the mutation
call with `upd`, for every project. -/
def clientOf (get : Nat → CallResult) (upd : CallResult) : PrivateEndpointsService :=
  ⟨fun k _ => get k, fun _ _ => upd⟩

/-- A decoder of state identifiers that reads the whole identifier as the
project. -/
def plainDecode : String → StringMap := fun s => [("project_id", s)]

/-- An encoder of state identifiers that writes `key:value` entries. -/
def plainEncode : StringMap → String := fun m =>
  String.intercalate "-" (m.map fun kv => kv.1 ++ ":" ++ kv.2)

/-- Resource data of project `p` with `enabled = false`. -/
def sampleData : ResourceData := ⟨"p", some "p", some false⟩

/-- A context that is never cancelled. -/
def background : Context := ⟨none⟩

/-! Lemmas on the wait -/

/-- A suspension that is cancelled ends within the sleep. -/
theorem suspend_cancelled_bounds (ctx : Context) (now d t : Nat)
    (h : suspend ctx now d = .cancelled t) : now ≤ t ∧ t ≤ now + d := by
  unfold suspend at h
  cases hc : ctx.doneAt with
  | none => simp [hc] at h
  | some c =>
    simp only [hc] at h
    split at h
    · injection h with h
      omega
    · simp at h

/-- A suspension that is not cancelled ends with the sleep. -/
theorem suspend_resumed_eq (ctx : Context) (now d t : Nat)
    (h : suspend ctx now d = .resumed t) : t = now + d := by
  unfold suspend at h
  cases hc : ctx.doneAt with
  | none =>
    simp only [hc] at h
    injection h with h
    omega
  | some c =>
    simp only [hc] at h
    split at h
    · simp at h
    · injection h with h
      omega

/-- A context not yet done by the end of a sleep lets the sleep run out. -/
theorem suspend_of_not_doneBy (ctx : Context) (now d t : Nat)
    (h : ctx.doneBy t = false) (ht : now + d ≤ t) :
    suspend ctx now d = .resumed (now + d) := by
  unfold suspend
  unfold Context.doneBy at h
  cases hc : ctx.doneAt with
  | none => rfl
  | some c =>
    simp only [hc, decide_eq_false_iff_not, not_le] at h
    have : ¬ c ≤ now + d := by omega
    simp [this]

/-- A context done by the end of a sleep cancels it. -/
theorem suspend_of_doneBy (ctx : Context) (now d : Nat)
    (h : ctx.doneBy (now + d) = true) :
    ∃ t, suspend ctx now d = .cancelled t := by
  unfold suspend
  unfold Context.doneBy at h
  cases hc : ctx.doneAt with
  | none => simp [hc] at h
  | some c =>
    simp only [hc, decide_eq_true_eq] at h
    exact ⟨max now c, by simp [h]⟩

/-- The POLLING loop ends within its rounds when the interval is positive: with
`fuel + 1` rounds left and `timeout ≤ elapsed + fuel * interval` it returns a
trace, the time polled is at most `timeout + interval`, and the trace carries a
PollOutcome when the callback never panics. -/
theorem pollLoop_ends (conf : StateChangeConf) (ctx : Context) (start : Nat)
    (hM : 0 < conf.MinTimeout) :
    ∀ (fuel calls now : Nat), start ≤ now →
      now - start ≤ conf.Timeout + conf.MinTimeout →
      conf.Timeout ≤ (now - start) + fuel * conf.MinTimeout →
      ∃ w, pollLoop conf ctx start (fuel + 1) calls now = some w ∧
        w.polled ≤ conf.Timeout + conf.MinTimeout ∧
        ((∀ k, ∃ r, conf.Refresh k = .returned r) → ∃ o, w.result = .returned o) := by
  intro fuel
  induction fuel with
  | zero =>
    intro calls now hs hb hf
    simp only [Nat.zero_mul, Nat.add_zero] at hf
    simp only [pollLoop]
    cases hr : conf.Refresh calls with
    | panicked =>
      refine ⟨_, rfl, hb, ?_⟩
      intro hall
      obtain ⟨r, hr2⟩ := hall calls
      rw [hr] at hr2
      cases hr2
    | returned r =>
      simp only []
      cases hcl : classify conf r with
      | NotFoundAsDeleted => exact ⟨_, rfl, hb, fun _ => ⟨_, rfl⟩⟩
      | Terminal s p => exact ⟨_, rfl, hb, fun _ => ⟨_, rfl⟩⟩
      | Failure c => exact ⟨_, rfl, hb, fun _ => ⟨_, rfl⟩⟩
      | Ongoing s p =>
        simp only [hf, if_true]
        exact ⟨_, rfl, hb, fun _ => ⟨_, rfl⟩⟩
  | succ n ih =>
    intro calls now hs hb hf
    rw [pollLoop]
    cases hr : conf.Refresh calls with
    | panicked =>
      refine ⟨_, rfl, hb, ?_⟩
      intro hall
      obtain ⟨r, hr2⟩ := hall calls
      rw [hr] at hr2
      cases hr2
    | returned r =>
      simp only []
      cases hcl : classify conf r with
      | NotFoundAsDeleted => exact ⟨_, rfl, hb, fun _ => ⟨_, rfl⟩⟩
      | Terminal s p => exact ⟨_, rfl, hb, fun _ => ⟨_, rfl⟩⟩
      | Failure c => exact ⟨_, rfl, hb, fun _ => ⟨_, rfl⟩⟩
      | Ongoing s p =>
        simp only []
        by_cases hto : conf.Timeout ≤ now - start
        · simp only [hto, if_true]
          exact ⟨_, rfl, hb, fun _ => ⟨_, rfl⟩⟩
        · simp only [hto, if_false]
          cases hsus : suspend ctx now conf.MinTimeout with
          | cancelled t =>
            have hbnd := suspend_cancelled_bounds ctx now conf.MinTimeout t hsus
            refine ⟨_, rfl, ?_, fun _ => ⟨_, rfl⟩⟩
            show t - start ≤ conf.Timeout + conf.MinTimeout
            omega
          | resumed t =>
            have ht := suspend_resumed_eq ctx now conf.MinTimeout t hsus
            simp only []
            apply ih (calls + 1) t
            · omega
            · omega
            · have hmul : (n + 1) * conf.MinTimeout = n * conf.MinTimeout + conf.MinTimeout :=
                Nat.succ_mul n conf.MinTimeout
              omega

/-- The rounds of `roundsFor` are enough for the timeout. -/
theorem roundsFor_enough (conf : StateChangeConf) (hM : 0 < conf.MinTimeout) :
    conf.Timeout ≤ (conf.Timeout / conf.MinTimeout + 1) * conf.MinTimeout := by
  have h := Nat.lt_div_mul_add hM (a := conf.Timeout)
  have h2 : (conf.Timeout / conf.MinTimeout + 1) * conf.MinTimeout
      = conf.Timeout / conf.MinTimeout * conf.MinTimeout + conf.MinTimeout :=
    Nat.succ_mul _ _
  omega

/-- Bounded termination of the wait for every PollSpec with a positive minimum
interval: the wait returns a trace, at most `timeout + interval` after polling
started, and with a PollOutcome when the callback never panics. -/
theorem WaitForStateContext_ends (conf : StateChangeConf) (ctx : Context)
    (hM : 0 < conf.MinTimeout) :
    ∃ w, WaitForStateContext conf ctx = some w ∧
      w.polled ≤ conf.Timeout + conf.MinTimeout ∧
      ((∀ k, ∃ r, conf.Refresh k = .returned r) → ∃ o, w.result = .returned o) := by
  unfold WaitForStateContext
  cases hsus : suspend ctx 0 conf.Delay with
  | cancelled t => exact ⟨_, rfl, Nat.zero_le _, fun _ => ⟨_, rfl⟩⟩
  | resumed t =>
    simp only [roundsFor]
    apply pollLoop_ends conf ctx t hM (conf.Timeout / conf.MinTimeout + 1) 0 t (Nat.le_refl t)
    · omega
    · have := roundsFor_enough conf hM
      omega

/-- A wait whose context is not done by the end of the initial delay starts
polling at the end of the delay. -/
theorem wait_starts_polling (conf : StateChangeConf) (ctx : Context)
    (hctx : ctx.doneBy conf.Delay = false) :
    WaitForStateContext conf ctx
      = pollLoop conf ctx conf.Delay (conf.Timeout / conf.MinTimeout + 1 + 1) 0 conf.Delay := by
  unfold WaitForStateContext
  have h := suspend_of_not_doneBy ctx 0 conf.Delay conf.Delay hctx (by omega)
  simp only [Nat.zero_add] at h
  simp only [h, roundsFor]

/-- A wait whose context is done by the end of the initial delay ends Cancelled
within the delay, without a refresh call. -/
theorem wait_cancelled_in_delay (conf : StateChangeConf) (ctx : Context)
    (hctx : ctx.doneBy conf.Delay = true) :
    ∃ t, t ≤ conf.Delay ∧
      WaitForStateContext conf ctx = some ⟨.returned .Cancelled, 0, t, 0, 0⟩ := by
  unfold WaitForStateContext
  have h0 : ctx.doneBy (0 + conf.Delay) = true := by simpa using hctx
  obtain ⟨t, ht⟩ := suspend_of_doneBy ctx 0 conf.Delay h0
  have hb := suspend_cancelled_bounds ctx 0 conf.Delay t ht
  exact ⟨t, by omega, by simp only [ht]⟩

/-- A panic of the first refresh call ends the wait. -/
theorem wait_of_panic (conf : StateChangeConf) (ctx : Context)
    (hctx : ctx.doneBy conf.Delay = false) (h0 : conf.Refresh 0 = .panicked) :
    WaitForStateContext conf ctx = some ⟨.panicked, 1, conf.Delay, 0, 0⟩ := by
  rw [wait_starts_polling conf ctx hctx, pollLoop]
  simp only [h0, Nat.sub_self, Nat.zero_add]

/-- An error of the first refresh call ends the wait Failed with that cause. -/
theorem wait_of_failure (conf : StateChangeConf) (ctx : Context) (r : RefreshResult)
    (cause : GoError) (hctx : ctx.doneBy conf.Delay = false)
    (h0 : conf.Refresh 0 = .returned r) (he : r.err = some cause) :
    WaitForStateContext conf ctx
      = some ⟨.returned (.Failed cause), 1, conf.Delay, 0, 0⟩ := by
  rw [wait_starts_polling conf ctx hctx, pollLoop]
  simp only [h0, classify, he, Nat.sub_self, Nat.zero_add]

/-- A target state on the first refresh call ends the wait Succeeded. -/
theorem wait_of_target (conf : StateChangeConf) (ctx : Context) (r : RefreshResult)
    (hctx : ctx.doneBy conf.Delay = false)
    (h0 : conf.Refresh 0 = .returned r) (he : r.err = none)
    (hp : r.state ∉ conf.Pending) (ht : r.state ∈ conf.Target) :
    WaitForStateContext conf ctx
      = some ⟨.returned (.Succeeded r.result), 1, conf.Delay, 0, 0⟩ := by
  rw [wait_starts_polling conf ctx hctx, pollLoop]
  simp only [h0, classify, he, hp, ht, if_true, if_false, Nat.sub_self, Nat.zero_add]

/-- A state of neither set on the first refresh call ends the wait Failed. -/
theorem wait_of_unexpected (conf : StateChangeConf) (ctx : Context) (r : RefreshResult)
    (hctx : ctx.doneBy conf.Delay = false)
    (h0 : conf.Refresh 0 = .returned r) (he : r.err = none)
    (hp : r.state ∉ conf.Pending) (ht : r.state ∉ conf.Target) :
    WaitForStateContext conf ctx
      = some ⟨.returned (.Failed (.unexpectedState r.state)), 1, conf.Delay, 0, 0⟩ := by
  rw [wait_starts_polling conf ctx hctx, pollLoop]
  simp only [h0, classify, he, hp, ht, if_false, Nat.sub_self, Nat.zero_add]

/-! Lemmas on the refresh callback -/

/-- The callback answers an HTTP 404 error with the state "DELETED", the empty
string as payload and no error. -/
theorem refresh_not_found (client : PrivateEndpointsService) (projectID : String)
    (k : Nat) (err : GoError)
    (hErr : (client.GetRegionalizedPrivateEndpointSetting k projectID).err = some err)
    (hResp : (client.GetRegionalizedPrivateEndpointSetting k projectID).resp = some ⟨404⟩) :
    resourcePrivateEndpointRegionalModeRefreshFunc client projectID k
      = .returned ⟨some (.str ""), "DELETED", none⟩ := by
  simp [resourcePrivateEndpointRegionalModeRefreshFunc, hErr, hResp]

/-- The callback answers an error that comes with an HTTP response of another
status with a nil payload, the state "REJECTED" and the error unchanged. -/
theorem refresh_hard_error (client : PrivateEndpointsService) (projectID : String)
    (k : Nat) (err : GoError) (resp : Response)
    (hErr : (client.GetRegionalizedPrivateEndpointSetting k projectID).err = some err)
    (hResp : (client.GetRegionalizedPrivateEndpointSetting k projectID).resp = some resp)
    (hCode : resp.StatusCode ≠ 404) :
    resourcePrivateEndpointRegionalModeRefreshFunc client projectID k
      = .returned ⟨none, "REJECTED", some err⟩ := by
  simp [resourcePrivateEndpointRegionalModeRefreshFunc, hErr, hResp, hCode]

/-- The callback panics on an error that comes without an HTTP response: line
128 reads `resp.Response.StatusCode` of a nil `resp`. -/
theorem refresh_no_response (client : PrivateEndpointsService) (projectID : String)
    (k : Nat) (err : GoError)
    (hErr : (client.GetRegionalizedPrivateEndpointSetting k projectID).err = some err)
    (hResp : (client.GetRegionalizedPrivateEndpointSetting k projectID).resp = none) :
    resourcePrivateEndpointRegionalModeRefreshFunc client projectID k = .panicked := by
  simp [resourcePrivateEndpointRegionalModeRefreshFunc, hErr, hResp]

/-- The callback answers a successful status query with the state "Ok". -/
theorem refresh_ok (client : PrivateEndpointsService) (projectID : String) (k : Nat)
    (hErr : (client.GetRegionalizedPrivateEndpointSetting k projectID).err = none) :
    resourcePrivateEndpointRegionalModeRefreshFunc client projectID k
      = .returned ⟨some (.setting
          (client.GetRegionalizedPrivateEndpointSetting k projectID).setting), "Ok", none⟩ := by
  simp [resourcePrivateEndpointRegionalModeRefreshFunc, hErr]

/-- Whatever the status query answers, a state returned by the callback is
"DELETED" without an error, "REJECTED" with an error, or "Ok" without one. -/
theorem refresh_states (client : PrivateEndpointsService) (projectID : String) (k : Nat)
    (r : RefreshResult)
    (h : resourcePrivateEndpointRegionalModeRefreshFunc client projectID k = .returned r) :
    (r.state = "DELETED" ∧ r.err = none) ∨
      (r.state = "REJECTED" ∧ ∃ cause, r.err = some cause) ∨
      (r.state = "Ok" ∧ r.err = none) := by
  unfold resourcePrivateEndpointRegionalModeRefreshFunc at h
  simp only [] at h
  split at h
  · split at h
    · cases h
    · split at h
      · injection h with h
        subst h
        exact Or.inl ⟨rfl, rfl⟩
      · injection h with h
        subst h
        exact Or.inr (Or.inl ⟨rfl, _, rfl⟩)
  · injection h with h
    subst h
    exact Or.inr (Or.inr ⟨rfl, rfl⟩)

/-! Read and the mutation call of Update -/

/-- C1: for every project identifier, when the status query fails and its
response carries HTTP status 404, Read sets the resource ID to the empty string
and returns no diagnostics. -/
theorem read_not_found_reports_absent (decodeStateID : String → StringMap)
    (d : ResourceData) (conn : PrivateEndpointsService) (err : GoError)
    (hErr : (conn.GetRegionalizedPrivateEndpointSetting 0
      (StringMap.index (decodeStateID d.Id) "project_id")).err = some err)
    (hResp : (conn.GetRegionalizedPrivateEndpointSetting 0
      (StringMap.index (decodeStateID d.Id) "project_id")).resp = some ⟨StatusNotFound⟩) :
    resourceMongoDBAtlasPrivateEndpointRegionalModeRead decodeStateID d conn
        = .returned (d.SetId "", []) ∧
      (d.SetId "").Id = "" := by
  constructor
  · simp only [resourceMongoDBAtlasPrivateEndpointRegionalModeRead, hErr, hResp, if_true]
  · rfl

/-- Read at project `p` when the status query answers 404. -/
theorem read_not_found_reports_absent_witness :
    resourceMongoDBAtlasPrivateEndpointRegionalModeRead plainDecode sampleData
        (clientOf (fun _ => answerStatus 404 "not found") (answerOk false))
        = .returned (⟨"", some "p", some false⟩, []) ∧
      (sampleData.SetId "").Id = "" :=
  read_not_found_reports_absent plainDecode sampleData
    (clientOf (fun _ => answerStatus 404 "not found") (answerOk false))
    (.remote "not found") rfl rfl

/-- C2: for every project identifier and every desired value of `enabled`, when
the mutation call fails with an HTTP 404 response, Update returns no
diagnostics, starts no wait and issues zero status queries. -/
theorem update_mutation_not_found_returns (decodeStateID : String → StringMap)
    (ctx : Context) (d : ResourceData) (conn : PrivateEndpointsService) (err : GoError)
    (hErr : (conn.UpdateRegionalizedPrivateEndpointSetting
      (StringMap.index (decodeStateID d.Id) "project_id") d.GetEnabled).err = some err)
    (hResp : (conn.UpdateRegionalizedPrivateEndpointSetting
      (StringMap.index (decodeStateID d.Id) "project_id") d.GetEnabled).resp = some ⟨404⟩) :
    ∃ u, resourceMongoDBAtlasPrivateEndpointRegionalModeUpdate decodeStateID ctx d conn
        = some u ∧
      u.result = .returned [] ∧ u.wait = none ∧ u.statusQueries = 0 := by
  refine ⟨⟨.returned [], none⟩, ?_, rfl, rfl, rfl⟩
  simp only [resourceMongoDBAtlasPrivateEndpointRegionalModeUpdate, hErr, hResp, if_true]

/-- Update at project `p` when the mutation call answers 404. -/
theorem update_mutation_not_found_returns_witness :
    ∃ u, resourceMongoDBAtlasPrivateEndpointRegionalModeUpdate plainDecode background
        sampleData (clientOf (fun _ => answerOk false) (answerStatus 404 "not found"))
        = some u ∧
      u.result = .returned [] ∧ u.wait = none ∧ u.statusQueries = 0 :=
  update_mutation_not_found_returns plainDecode background sampleData
    (clientOf (fun _ => answerOk false) (answerStatus 404 "not found"))
    (.remote "not found") rfl rfl

/-- A failed mutation call that comes with an HTTP response: Update returns no
diagnostics on status 404 and otherwise one error diagnostic carrying the
project identifier and the cause; in both cases no wait is started. -/
theorem update_mutation_error_with_response (decodeStateID : String → StringMap)
    (ctx : Context) (d : ResourceData) (conn : PrivateEndpointsService) (err : GoError)
    (resp : Response)
    (hErr : (conn.UpdateRegionalizedPrivateEndpointSetting
      (StringMap.index (decodeStateID d.Id) "project_id") d.GetEnabled).err = some err)
    (hResp : (conn.UpdateRegionalizedPrivateEndpointSetting
      (StringMap.index (decodeStateID d.Id) "project_id") d.GetEnabled).resp = some resp) :
    resourceMongoDBAtlasPrivateEndpointRegionalModeUpdate decodeStateID ctx d conn
      = some ⟨.returned (if resp.StatusCode = 404 then [] else
          [⟨.Error, .errorf .errorPrivateLinkEndpointsDelete
            [StringMap.index (decodeStateID d.Id) "project_id"] err⟩]), none⟩ := by
  simp only [resourceMongoDBAtlasPrivateEndpointRegionalModeUpdate, hErr, hResp]
  split <;> rfl

/-- C9, the code at a failed mutation without HTTP response: line 74 reads
`resp.Response.StatusCode` of the nil `resp`, and Update panics instead of
returning diagnostics. -/
theorem update_panics_on_mutation_without_response :
    resourceMongoDBAtlasPrivateEndpointRegionalModeUpdate plainDecode background
        sampleData (clientOf (fun _ => answerOk false) (answerNoResponse "connection refused"))
      = some ⟨.panicked, none⟩ := by
  decide

/-! The wait that Update starts -/

/-- C4: for every project identifier, when the mutation call succeeds and the
status query answers with an error whose response is HTTP 404, the refresh
callback returns the state "DELETED" with a non-nil payload and a nil error;
"DELETED" is in the Target set, the wait ends Succeeded after exactly one status
query, and Update returns no diagnostics. -/
theorem update_status_not_found_succeeds (decodeStateID : String → StringMap)
    (ctx : Context) (d : ResourceData) (conn : PrivateEndpointsService) (err : GoError)
    (hMut : (conn.UpdateRegionalizedPrivateEndpointSetting
      (StringMap.index (decodeStateID d.Id) "project_id") d.GetEnabled).err = none)
    (hErr : (conn.GetRegionalizedPrivateEndpointSetting 0
      (StringMap.index (decodeStateID d.Id) "project_id")).err = some err)
    (hResp : (conn.GetRegionalizedPrivateEndpointSetting 0
      (StringMap.index (decodeStateID d.Id) "project_id")).resp = some ⟨404⟩)
    (hCtx : ctx.doneBy (3 * Second) = false) :
    resourcePrivateEndpointRegionalModeRefreshFunc conn
        (StringMap.index (decodeStateID d.Id) "project_id") 0
        = .returned ⟨some (.str ""), "DELETED", none⟩ ∧
      "DELETED" ∈ (updateStateConf conn
        (StringMap.index (decodeStateID d.Id) "project_id")).Target ∧
      WaitForStateContext
          (updateStateConf conn (StringMap.index (decodeStateID d.Id) "project_id")) ctx
        = some ⟨.returned (.Succeeded (some (.str ""))), 1, 3 * Second, 0, 0⟩ ∧
      resourceMongoDBAtlasPrivateEndpointRegionalModeUpdate decodeStateID ctx d conn
        = some ⟨.returned [],
            some ⟨.returned (.Succeeded (some (.str ""))), 1, 3 * Second, 0, 0⟩⟩ := by
  have hRef := refresh_not_found conn
    (StringMap.index (decodeStateID d.Id) "project_id") 0 err hErr hResp
  have hWait := wait_of_target
    (updateStateConf conn (StringMap.index (decodeStateID d.Id) "project_id")) ctx
    ⟨some (.str ""), "DELETED", none⟩ hCtx hRef rfl (by simp [updateStateConf]) (by simp [updateStateConf])
  refine ⟨hRef, by simp [updateStateConf], hWait, ?_⟩
  simp only [resourceMongoDBAtlasPrivateEndpointRegionalModeUpdate, hMut, hWait]
  rfl

/-- Update at project `p` when the mutation succeeds and the first status query
answers 404. -/
theorem update_status_not_found_succeeds_witness :
    resourcePrivateEndpointRegionalModeRefreshFunc
        (clientOf (fun _ => answerStatus 404 "not found") (answerOk false)) "p" 0
        = .returned ⟨some (.str ""), "DELETED", none⟩ ∧
      "DELETED" ∈ (updateStateConf
        (clientOf (fun _ => answerStatus 404 "not found") (answerOk false)) "p").Target ∧
      WaitForStateContext
          (updateStateConf
            (clientOf (fun _ => answerStatus 404 "not found") (answerOk false)) "p")
          background
        = some ⟨.returned (.Succeeded (some (.str ""))), 1, 3 * Second, 0, 0⟩ ∧
      resourceMongoDBAtlasPrivateEndpointRegionalModeUpdate plainDecode background
          sampleData (clientOf (fun _ => answerStatus 404 "not found") (answerOk false))
        = some ⟨.returned [],
            some ⟨.returned (.Succeeded (some (.str ""))), 1, 3 * Second, 0, 0⟩⟩ :=
  update_status_not_found_succeeds plainDecode background sampleData
    (clientOf (fun _ => answerStatus 404 "not found") (answerOk false))
    (.remote "not found") rfl rfl rfl rfl

/-- An error of the status query that comes with an HTTP response of another
status than 404: the callback returns a nil payload, "REJECTED" and the error
unchanged, the wait ends Failed with that cause after exactly one status query,
and Update returns one error diagnostic carrying the project and the cause. -/
theorem update_status_hard_error (decodeStateID : String → StringMap)
    (ctx : Context) (d : ResourceData) (conn : PrivateEndpointsService) (err : GoError)
    (resp : Response)
    (hMut : (conn.UpdateRegionalizedPrivateEndpointSetting
      (StringMap.index (decodeStateID d.Id) "project_id") d.GetEnabled).err = none)
    (hErr : (conn.GetRegionalizedPrivateEndpointSetting 0
      (StringMap.index (decodeStateID d.Id) "project_id")).err = some err)
    (hResp : (conn.GetRegionalizedPrivateEndpointSetting 0
      (StringMap.index (decodeStateID d.Id) "project_id")).resp = some resp)
    (hCode : resp.StatusCode ≠ 404)
    (hCtx : ctx.doneBy (3 * Second) = false) :
    resourcePrivateEndpointRegionalModeRefreshFunc conn
        (StringMap.index (decodeStateID d.Id) "project_id") 0
        = .returned ⟨none, "REJECTED", some err⟩ ∧
      resourceMongoDBAtlasPrivateEndpointRegionalModeUpdate decodeStateID ctx d conn
        = some ⟨.returned [⟨.Error, .errorf .errorPrivateLinkEndpointsDelete
              [StringMap.index (decodeStateID d.Id) "project_id"] err⟩],
            some ⟨.returned (.Failed err), 1, 3 * Second, 0, 0⟩⟩ := by
  have hRef := refresh_hard_error conn
    (StringMap.index (decodeStateID d.Id) "project_id") 0 err resp hErr hResp hCode
  have hWait := wait_of_failure
    (updateStateConf conn (StringMap.index (decodeStateID d.Id) "project_id")) ctx
    ⟨none, "REJECTED", some err⟩ err hCtx hRef rfl
  refine ⟨hRef, ?_⟩
  simp only [resourceMongoDBAtlasPrivateEndpointRegionalModeUpdate, hMut, hWait]
  rfl

/-- C5, the code at an error of the status query without HTTP response: line
128 reads `resp.Response.StatusCode` of the nil `resp`; the callback panics
instead of returning `(nil, "REJECTED", err)`, and the panic ends the wait and
Update after the one status query. -/
theorem refresh_panics_on_error_without_response :
    resourcePrivateEndpointRegionalModeRefreshFunc
        (clientOf (fun _ => answerNoResponse "connection refused") (answerOk false)) "p" 0
        = .panicked ∧
      resourceMongoDBAtlasPrivateEndpointRegionalModeUpdate plainDecode background
          sampleData
          (clientOf (fun _ => answerNoResponse "connection refused") (answerOk false))
        = some ⟨.panicked, some ⟨.panicked, 1, 3 * Second, 0, 0⟩⟩ := by
  decide

/-- C6: for every successful status query, whatever setting it returns, the
refresh callback reports the state "Ok", which is in neither Pending nor Target;
the wait ends Failed with the unexpected state on that first tick, with no
further tick and no inter-poll sleep whatever the timeout, and Update returns
exactly one diagnostic, of severity error, that carries the project and the
unexpected state; it is not the empty diagnostics of a success. -/
theorem update_status_ok_is_unexpected (decodeStateID : String → StringMap)
    (ctx : Context) (d : ResourceData) (conn : PrivateEndpointsService)
    (hMut : (conn.UpdateRegionalizedPrivateEndpointSetting
      (StringMap.index (decodeStateID d.Id) "project_id") d.GetEnabled).err = none)
    (hOk : (conn.GetRegionalizedPrivateEndpointSetting 0
      (StringMap.index (decodeStateID d.Id) "project_id")).err = none)
    (hCtx : ctx.doneBy (3 * Second) = false) :
    resourcePrivateEndpointRegionalModeRefreshFunc conn
        (StringMap.index (decodeStateID d.Id) "project_id") 0
        = .returned ⟨some (.setting (conn.GetRegionalizedPrivateEndpointSetting 0
            (StringMap.index (decodeStateID d.Id) "project_id")).setting), "Ok", none⟩ ∧
      "Ok" ∉ (updateStateConf conn
        (StringMap.index (decodeStateID d.Id) "project_id")).Pending ∧
      "Ok" ∉ (updateStateConf conn
        (StringMap.index (decodeStateID d.Id) "project_id")).Target ∧
      (∀ timeout : Nat,
        WaitForStateContext
            { updateStateConf conn (StringMap.index (decodeStateID d.Id) "project_id")
              with Timeout := timeout } ctx
          = some ⟨.returned (.Failed (.unexpectedState "Ok")), 1, 3 * Second, 0, 0⟩) ∧
      resourceMongoDBAtlasPrivateEndpointRegionalModeUpdate decodeStateID ctx d conn
        = some ⟨.returned [⟨.Error, .errorf .errorPrivateLinkEndpointsDelete
              [StringMap.index (decodeStateID d.Id) "project_id"]
              (.unexpectedState "Ok")⟩],
            some ⟨.returned (.Failed (.unexpectedState "Ok")), 1, 3 * Second, 0, 0⟩⟩ ∧
      (∀ u, resourceMongoDBAtlasPrivateEndpointRegionalModeUpdate decodeStateID ctx d conn
          = some u →
        u.result ≠ .returned [] ∧
          ∃ diags, u.result = .returned diags ∧ diags.length = 1 ∧
            ∀ g ∈ diags, g.severity = .Error ∧
              g.cause = .errorf .errorPrivateLinkEndpointsDelete
                [StringMap.index (decodeStateID d.Id) "project_id"]
                (.unexpectedState "Ok")) := by
  have hRef := refresh_ok conn (StringMap.index (decodeStateID d.Id) "project_id") 0 hOk
  have hAny : ∀ timeout : Nat,
      WaitForStateContext
          { updateStateConf conn (StringMap.index (decodeStateID d.Id) "project_id")
            with Timeout := timeout } ctx
        = some ⟨.returned (.Failed (.unexpectedState "Ok")), 1, 3 * Second, 0, 0⟩ :=
    fun timeout => wait_of_unexpected
      { updateStateConf conn (StringMap.index (decodeStateID d.Id) "project_id")
        with Timeout := timeout } ctx _ hCtx hRef rfl (by simp [updateStateConf]) (by simp [updateStateConf])
  have hWait := wait_of_unexpected
    (updateStateConf conn (StringMap.index (decodeStateID d.Id) "project_id")) ctx
    _ hCtx hRef rfl (by simp [updateStateConf]) (by simp [updateStateConf])
  have hUpd : resourceMongoDBAtlasPrivateEndpointRegionalModeUpdate decodeStateID ctx d conn
      = some ⟨.returned [⟨.Error, .errorf .errorPrivateLinkEndpointsDelete
            [StringMap.index (decodeStateID d.Id) "project_id"]
            (.unexpectedState "Ok")⟩],
          some ⟨.returned (.Failed (.unexpectedState "Ok")), 1, 3 * Second, 0, 0⟩⟩ := by
    simp only [resourceMongoDBAtlasPrivateEndpointRegionalModeUpdate, hMut, hWait]
    rfl
  refine ⟨hRef, by simp [updateStateConf], by simp [updateStateConf], hAny, hUpd, ?_⟩
  intro u hu
  rw [hUpd] at hu
  injection hu with hu
  subst hu
  refine ⟨by simp, _, rfl, rfl, ?_⟩
  intro g hg
  simp only [List.mem_singleton] at hg
  subst hg
  exact ⟨rfl, rfl⟩

/-- Update at project `p` when the mutation succeeds and the first status query
succeeds with `enabled = true`. -/
theorem update_status_ok_is_unexpected_witness :
    resourcePrivateEndpointRegionalModeRefreshFunc
        (clientOf (fun _ => answerOk true) (answerOk false)) "p" 0
        = .returned ⟨some (.setting (some ⟨true⟩)), "Ok", none⟩ ∧
      "Ok" ∉ (updateStateConf (clientOf (fun _ => answerOk true) (answerOk false)) "p").Pending ∧
      "Ok" ∉ (updateStateConf (clientOf (fun _ => answerOk true) (answerOk false)) "p").Target ∧
      (∀ timeout : Nat,
        WaitForStateContext
            { updateStateConf (clientOf (fun _ => answerOk true) (answerOk false)) "p"
              with Timeout := timeout } background
          = some ⟨.returned (.Failed (.unexpectedState "Ok")), 1, 3 * Second, 0, 0⟩) ∧
      resourceMongoDBAtlasPrivateEndpointRegionalModeUpdate plainDecode background
          sampleData (clientOf (fun _ => answerOk true) (answerOk false))
        = some ⟨.returned [⟨.Error, .errorf .errorPrivateLinkEndpointsDelete
              ["p"] (.unexpectedState "Ok")⟩],
            some ⟨.returned (.Failed (.unexpectedState "Ok")), 1, 3 * Second, 0, 0⟩⟩ ∧
      (∀ u, resourceMongoDBAtlasPrivateEndpointRegionalModeUpdate plainDecode background
          sampleData (clientOf (fun _ => answerOk true) (answerOk false)) = some u →
        u.result ≠ .returned [] ∧
          ∃ diags, u.result = .returned diags ∧ diags.length = 1 ∧
            ∀ g ∈ diags, g.severity = .Error ∧
              g.cause = .errorf .errorPrivateLinkEndpointsDelete
                ["p"] (.unexpectedState "Ok")) :=
  update_status_ok_is_unexpected plainDecode background sampleData
    (clientOf (fun _ => answerOk true) (answerOk false)) rfl rfl rfl

/-- Bounded termination whenever the callback returns: the PollSpec built by
Update has disjoint Pending and Target sets, a positive timeout, a positive
minimum interval and a non-negative initial delay, and for every sequence of
answers handed to the wait and every context the wait ends with exactly one
PollOutcome, at most `timeout + minInterval` after polling started, on a clock
advanced by the suspensions only. With the callback of Update itself the wait
ends within the same bound, with a PollOutcome provided that the callback
returns at every call. -/
theorem update_wait_bounded_termination (conn : PrivateEndpointsService)
    (projectID : String) :
    (∀ s, s ∈ (updateStateConf conn projectID).Pending →
        s ∉ (updateStateConf conn projectID).Target) ∧
      0 < (updateStateConf conn projectID).Timeout ∧
      0 < (updateStateConf conn projectID).MinTimeout ∧
      0 ≤ (updateStateConf conn projectID).Delay ∧
      (∀ (answers : Nat → RefreshResult) (ctx : Context),
        ∃ w o,
          WaitForStateContext
              { updateStateConf conn projectID with
                Refresh := fun k => .returned (answers k) } ctx = some w ∧
            w.result = .returned o ∧
            w.polled ≤ (updateStateConf conn projectID).Timeout
              + (updateStateConf conn projectID).MinTimeout) ∧
      (∀ ctx : Context,
        ∃ w, WaitForStateContext (updateStateConf conn projectID) ctx = some w ∧
          w.polled ≤ (updateStateConf conn projectID).Timeout
            + (updateStateConf conn projectID).MinTimeout ∧
          ((∀ k, ∃ r, resourcePrivateEndpointRegionalModeRefreshFunc conn projectID k
              = .returned r) → ∃ o, w.result = .returned o)) := by
  have hM : 0 < (updateStateConf conn projectID).MinTimeout := by
    simp [updateStateConf, Second]
  refine ⟨?_, ?_, hM, Nat.zero_le _, ?_, ?_⟩
  · intro s hs
    simp only [updateStateConf, List.mem_singleton] at hs
    subst hs
    simp [updateStateConf]
  · simp [updateStateConf, Hour, Second]
  · intro answers ctx
    obtain ⟨w, hw, hb, ho⟩ := WaitForStateContext_ends
      { updateStateConf conn projectID with Refresh := fun k => .returned (answers k) }
      ctx hM
    obtain ⟨o, hres⟩ := ho (fun k => ⟨answers k, rfl⟩)
    exact ⟨w, o, hw, hres, hb⟩
  · intro ctx
    exact WaitForStateContext_ends (updateStateConf conn projectID) ctx hM

/-- C7, the code on a sequence of status-query responses that starts with an
error without HTTP response: the PollSpec is as the claim says, but the wait
that Update starts ends with none of Succeeded, Failed, TimedOut and Cancelled.
The callback panics at line 128 on the nil `resp`, and the panic ends the wait
and Update after the one status query. -/
theorem update_wait_ends_without_outcome :
    (updateStateConf
        (clientOf (fun _ => answerNoResponse "connection refused") (answerOk false))
        "p").Pending = ["DELETING"] ∧
      (updateStateConf
        (clientOf (fun _ => answerNoResponse "connection refused") (answerOk false))
        "p").Target = ["DELETED", "FAILED"] ∧
      WaitForStateContext
          (updateStateConf
            (clientOf (fun _ => answerNoResponse "connection refused") (answerOk false))
            "p") background
        = some ⟨.panicked, 1, 3 * Second, 0, 0⟩ ∧
      (∀ o : PollOutcome,
        (WaitForStateContext
          (updateStateConf
            (clientOf (fun _ => answerNoResponse "connection refused") (answerOk false))
            "p") background).map WaitTrace.result ≠ some (.returned o)) ∧
      (resourceMongoDBAtlasPrivateEndpointRegionalModeUpdate plainDecode background
          sampleData
          (clientOf (fun _ => answerNoResponse "connection refused") (answerOk false))).map
        UpdateTrace.result = some .panicked := by
  have hw : WaitForStateContext
      (updateStateConf
        (clientOf (fun _ => answerNoResponse "connection refused") (answerOk false))
        "p") background
      = some ⟨.panicked, 1, 3 * Second, 0, 0⟩ := by decide
  refine ⟨rfl, rfl, hw, ?_, by decide⟩
  intro o h
  rw [hw] at h
  cases h

/-! Scenario A -/

/-- One round of the POLLING loop on an ongoing answer before the timeout, with
a sleep that is not cancelled. -/
theorem pollLoop_step_ongoing (conf : StateChangeConf) (ctx : Context)
    (start fuel calls now t : Nat) (r : RefreshResult) (s : String) (p : Option Payload)
    (hr : conf.Refresh calls = .returned r) (hc : classify conf r = .Ongoing s p)
    (ht : ¬ conf.Timeout ≤ now - start)
    (hs : suspend ctx now conf.MinTimeout = .resumed t) :
    pollLoop conf ctx start (fuel + 1) calls now
      = pollLoop conf ctx start fuel (calls + 1) t := by
  rw [pollLoop]
  simp only [hr, hc, ht, if_false, hs]

/-- The last round of the POLLING loop on a terminal answer. -/
theorem pollLoop_step_terminal (conf : StateChangeConf) (ctx : Context)
    (start fuel calls now : Nat) (r : RefreshResult) (s : String) (p : Option Payload)
    (hr : conf.Refresh calls = .returned r) (hc : classify conf r = .Terminal s p) :
    pollLoop conf ctx start (fuel + 1) calls now
      = some ⟨.returned (.Succeeded p), calls + 1, start, now - start, calls⟩ := by
  rw [pollLoop]
  simp only [hr, hc]

/-- C3, the code on Scenario A: the teardown is still going on at the first
three status queries, which find the setting, and the fourth answers HTTP 404.
Update waits with the pending state "DELETING" (line 84), but its callback
reports "Ok" for each of the three queries that find the setting (line 135),
which is not in Pending; the wait ends Failed on the first status query after
3s of suspension instead of Succeeded on the fourth after 18s, and Update
returns an error diagnostic. -/
theorem scenario_A_fails_on_first_status_query :
    (updateStateConf
        (clientOf (fun k => if k < 3 then answerOk false else answerStatus 404 "not found")
          (answerOk false)) "p").Pending = ["DELETING"] ∧
      (List.range 3).map (fun k =>
          resourcePrivateEndpointRegionalModeRefreshFunc
            (clientOf (fun k => if k < 3 then answerOk false else answerStatus 404 "not found")
              (answerOk false)) "p" k)
        = [.returned ⟨some (.setting (some ⟨false⟩)), "Ok", none⟩,
           .returned ⟨some (.setting (some ⟨false⟩)), "Ok", none⟩,
           .returned ⟨some (.setting (some ⟨false⟩)), "Ok", none⟩] ∧
      resourcePrivateEndpointRegionalModeRefreshFunc
          (clientOf (fun k => if k < 3 then answerOk false else answerStatus 404 "not found")
            (answerOk false)) "p" 3
        = .returned ⟨some (.str ""), "DELETED", none⟩ ∧
      resourceMongoDBAtlasPrivateEndpointRegionalModeUpdate plainDecode background
          sampleData
          (clientOf (fun k => if k < 3 then answerOk false else answerStatus 404 "not found")
            (answerOk false))
        = some ⟨.returned [⟨.Error, .errorf .errorPrivateLinkEndpointsDelete
              ["p"] (.unexpectedState "Ok")⟩],
            some ⟨.returned (.Failed (.unexpectedState "Ok")), 1, 3 * Second, 0, 0⟩⟩ ∧
      (resourceMongoDBAtlasPrivateEndpointRegionalModeUpdate plainDecode background
          sampleData
          (clientOf (fun k => if k < 3 then answerOk false else answerStatus 404 "not found")
            (answerOk false))).map UpdateTrace.statusQueries = some 1 := by
  decide

/-- Scenario A on any configuration with the state sets and durations of Update:
three pending answers, then a target answer. -/
theorem wait_scenario_A (conf : StateChangeConf) (ctx : Context)
    (r0 r1 r2 r3 : RefreshResult)
    (hTime : conf.Timeout = 3600000000000) (hMin : conf.MinTimeout = 5000000000)
    (hDelay : conf.Delay = 3000000000)
    (hR0 : conf.Refresh 0 = .returned r0) (hR1 : conf.Refresh 1 = .returned r1)
    (hR2 : conf.Refresh 2 = .returned r2) (hR3 : conf.Refresh 3 = .returned r3)
    (hC0 : classify conf r0 = .Ongoing r0.state r0.result)
    (hC1 : classify conf r1 = .Ongoing r1.state r1.result)
    (hC2 : classify conf r2 = .Ongoing r2.state r2.result)
    (hC3 : classify conf r3 = .Terminal r3.state r3.result)
    (hCtx : ctx.doneBy 18000000000 = false) :
    WaitForStateContext conf ctx
      = some ⟨.returned (.Succeeded r3.result), 4, 3000000000, 15000000000, 3⟩ := by
  have h0 : suspend ctx 0 conf.Delay = .resumed 3000000000 := by
    rw [hDelay]
    exact suspend_of_not_doneBy ctx 0 3000000000 18000000000 hCtx (by decide)
  have h1 : suspend ctx 3000000000 conf.MinTimeout = .resumed 8000000000 := by
    rw [hMin]
    exact suspend_of_not_doneBy ctx 3000000000 5000000000 18000000000 hCtx (by decide)
  have h2 : suspend ctx 8000000000 conf.MinTimeout = .resumed 13000000000 := by
    rw [hMin]
    exact suspend_of_not_doneBy ctx 8000000000 5000000000 18000000000 hCtx (by decide)
  have h3 : suspend ctx 13000000000 conf.MinTimeout = .resumed 18000000000 := by
    rw [hMin]
    exact suspend_of_not_doneBy ctx 13000000000 5000000000 18000000000 hCtx (by decide)
  have hFuel : roundsFor conf = 718 + 1 + 1 + 1 + 1 := by
    unfold roundsFor
    rw [hTime, hMin]
  unfold WaitForStateContext
  rw [h0, hFuel]
  simp only []
  rw [pollLoop_step_ongoing conf ctx 3000000000 (718 + 1 + 1 + 1) 0 3000000000 8000000000
    r0 r0.state r0.result hR0 hC0 (by rw [hTime]; decide) h1]
  rw [pollLoop_step_ongoing conf ctx 3000000000 (718 + 1 + 1) (0 + 1) 8000000000 13000000000
    r1 r1.state r1.result hR1 hC1 (by rw [hTime]; decide) h2]
  rw [pollLoop_step_ongoing conf ctx 3000000000 (718 + 1) (0 + 1 + 1) 13000000000 18000000000
    r2 r2.state r2.result hR2 hC2 (by rw [hTime]; decide) h3]
  rw [pollLoop_step_terminal conf ctx 3000000000 718 (0 + 1 + 1 + 1) 18000000000
    r3 r3.state r3.result hR3 hC3]

/-- Scenario A with a callback that does report the pending state: on the
PollSpec built by Update, a refresh callback that returns "DELETING" on its
first three calls and on the fourth what the callback of this file returns for
an HTTP 404 makes a wait that is not cancelled end Succeeded after exactly four
refresh calls, with a total suspension of 3s + 3 × 5s = 18s and a nil error for
the caller. The callback of this file alone never returns "DELETING". -/
theorem scenario_A_on_update_poll_spec (conn : PrivateEndpointsService)
    (projectID : String) (ctx : Context) (payload : Option Payload) (err : GoError)
    (hErr : (conn.GetRegionalizedPrivateEndpointSetting 3 projectID).err = some err)
    (hResp : (conn.GetRegionalizedPrivateEndpointSetting 3 projectID).resp = some ⟨404⟩)
    (hCtx : ctx.doneBy (18 * Second) = false) :
    WaitForStateContext
        { updateStateConf conn projectID with
          Refresh := fun k =>
            if k < 3 then .returned ⟨payload, "DELETING", none⟩
            else resourcePrivateEndpointRegionalModeRefreshFunc conn projectID k } ctx
        = some ⟨.returned (.Succeeded (some (.str ""))), 4, 3 * Second, 15 * Second, 3⟩ ∧
      3 * Second + 15 * Second = 18 * Second ∧
      (PollOutcome.Succeeded (some (.str ""))).err = none ∧
      (∀ (client : PrivateEndpointsService) (p : String) (k : Nat) (r : RefreshResult),
        resourcePrivateEndpointRegionalModeRefreshFunc client p k = .returned r →
          r.state ≠ "DELETING") := by
  refine ⟨?_, by decide, rfl, ?_⟩
  · have hRef := refresh_not_found conn projectID 3 err hErr hResp
    exact wait_scenario_A
      { updateStateConf conn projectID with
        Refresh := fun k =>
          if k < 3 then .returned ⟨payload, "DELETING", none⟩
          else resourcePrivateEndpointRegionalModeRefreshFunc conn projectID k } ctx
      ⟨payload, "DELETING", none⟩ ⟨payload, "DELETING", none⟩ ⟨payload, "DELETING", none⟩
      ⟨some (.str ""), "DELETED", none⟩ rfl rfl rfl rfl rfl rfl hRef
      (by simp [classify, updateStateConf]) (by simp [classify, updateStateConf])
      (by simp [classify, updateStateConf]) (by simp [classify, updateStateConf]) hCtx
  · intro client p k r hr hstate
    rcases refresh_states client p k r hr with h | h | h <;>
      · rw [h.1] at hstate
        revert hstate
        decide

/-- Scenario A on the PollSpec of Update, with a context that is never
cancelled. -/
theorem scenario_A_on_update_poll_spec_witness :
    WaitForStateContext
        { updateStateConf (clientOf (fun _ => answerStatus 404 "not found") (answerOk false))
            "p" with
          Refresh := fun k =>
            if k < 3 then .returned ⟨some (.str "teardown"), "DELETING", none⟩
            else resourcePrivateEndpointRegionalModeRefreshFunc
              (clientOf (fun _ => answerStatus 404 "not found") (answerOk false)) "p" k }
        background
        = some ⟨.returned (.Succeeded (some (.str ""))), 4, 3 * Second, 15 * Second, 3⟩ ∧
      3 * Second + 15 * Second = 18 * Second ∧
      (PollOutcome.Succeeded (some (.str ""))).err = none ∧
      (∀ (client : PrivateEndpointsService) (p : String) (k : Nat) (r : RefreshResult),
        resourcePrivateEndpointRegionalModeRefreshFunc client p k = .returned r →
          r.state ≠ "DELETING") :=
  scenario_A_on_update_poll_spec
    (clientOf (fun _ => answerStatus 404 "not found") (answerOk false)) "p" background
    (some (.str "teardown")) (.remote "not found") rfl rfl rfl

/-! Worked cases of the wait -/

set_option maxRecDepth 100000 in
/-- A callback that answers "DELETING" for ever: the wait on the PollSpec of
Update ends TimedOut once an hour has been polled, after 721 refresh calls and
720 sleeps of the minimum interval. -/
theorem wait_always_pending_times_out :
    WaitForStateContext
        { updateStateConf (clientOf (fun _ => answerOk false) (answerOk false)) "p" with
          Refresh := fun _ => .returned ⟨some (.str "teardown"), "DELETING", none⟩ }
        background
      = some ⟨.returned (.TimedOut (1 * Hour)), 721, 3 * Second, 1 * Hour, 720⟩ := by
  decide

/-- Scenario C: a cancellation raised during the second inter-poll sleep ends
the wait Cancelled, and no third refresh call is made. -/
theorem wait_cancelled_in_second_sleep :
    WaitForStateContext
        { updateStateConf (clientOf (fun _ => answerOk false) (answerOk false)) "p" with
          Refresh := fun _ => .returned ⟨some (.str "teardown"), "DELETING", none⟩ }
        ⟨some (10 * Second)⟩
      = some ⟨.returned .Cancelled, 2, 3 * Second, 7 * Second, 2⟩ := by
  decide

/-! The pending state is never reported -/

/-- C10, the code on a context cancelled one second into the initial delay: the
wait that Update starts ends Cancelled without any status query, and Update
returns an error diagnostic. -/
theorem cancelled_wait_issues_no_status_query :
    resourceMongoDBAtlasPrivateEndpointRegionalModeUpdate plainDecode ⟨some Second⟩
        sampleData (clientOf (fun _ => answerOk false) (answerOk false))
        = some ⟨.returned [⟨.Error, .errorf .errorPrivateLinkEndpointsDelete
              ["p"] .cancelled⟩],
            some ⟨.returned .Cancelled, 0, Second, 0, 0⟩⟩ ∧
      (resourceMongoDBAtlasPrivateEndpointRegionalModeUpdate plainDecode ⟨some Second⟩
        sampleData (clientOf (fun _ => answerOk false) (answerOk false))).map
          UpdateTrace.statusQueries = some 0 := by
  decide

/-- C10 as amended: whatever the status query answers, a state returned by the
refresh callback is "DELETED", "REJECTED" or "Ok", never a member of Pending and
never "FAILED"; every wait started by Update is decided at the latest by its
first refresh response: it issues exactly one status query, or none when it is
cancelled during the initial delay, never sleeps for the minimum interval, and
never ends TimedOut. -/
theorem update_wait_decided_by_first_refresh (decodeStateID : String → StringMap)
    (ctx : Context) (d : ResourceData) (conn : PrivateEndpointsService) :
    (∀ (k : Nat) (r : RefreshResult),
        resourcePrivateEndpointRegionalModeRefreshFunc conn
            (StringMap.index (decodeStateID d.Id) "project_id") k = .returned r →
          (r.state = "DELETED" ∨ r.state = "REJECTED" ∨ r.state = "Ok") ∧
            r.state ∉ (updateStateConf conn
              (StringMap.index (decodeStateID d.Id) "project_id")).Pending ∧
            r.state ≠ "FAILED") ∧
      ∃ w,
        WaitForStateContext
            (updateStateConf conn (StringMap.index (decodeStateID d.Id) "project_id")) ctx
          = some w ∧
        w.calls = (if ctx.doneBy (3 * Second) = true then 0 else 1) ∧
        w.sleeps = 0 ∧ w.polled = 0 ∧
        (∀ elapsed, w.result ≠ .returned (.TimedOut elapsed)) ∧
        ∃ u, resourceMongoDBAtlasPrivateEndpointRegionalModeUpdate decodeStateID ctx d conn
            = some u ∧
          (u.wait = none ∨ u.wait = some w) := by
  constructor
  · intro k r hr
    rcases refresh_states conn _ k r hr with h | h | h <;>
      · rw [h.1]
        simp only [updateStateConf]
        decide
  · have hUpd : ∀ w,
        WaitForStateContext
            (updateStateConf conn (StringMap.index (decodeStateID d.Id) "project_id")) ctx
          = some w →
        ∃ u, resourceMongoDBAtlasPrivateEndpointRegionalModeUpdate decodeStateID ctx d conn
            = some u ∧
          (u.wait = none ∨ u.wait = some w) := by
      intro w hw
      simp only [resourceMongoDBAtlasPrivateEndpointRegionalModeUpdate, hw]
      split
      · split
        · exact ⟨_, rfl, Or.inl rfl⟩
        · split
          · exact ⟨_, rfl, Or.inl rfl⟩
          · exact ⟨_, rfl, Or.inl rfl⟩
      · split
        · exact ⟨_, rfl, Or.inr rfl⟩
        · split
          · exact ⟨_, rfl, Or.inr rfl⟩
          · exact ⟨_, rfl, Or.inr rfl⟩
    cases hd : ctx.doneBy (3 * Second) with
    | true =>
      obtain ⟨t, _, hw⟩ := wait_cancelled_in_delay
        (updateStateConf conn (StringMap.index (decodeStateID d.Id) "project_id")) ctx hd
      refine ⟨_, hw, by simp, rfl, rfl, ?_, hUpd _ hw⟩
      intro elapsed h
      cases h
    | false =>
      cases hr : resourcePrivateEndpointRegionalModeRefreshFunc conn
          (StringMap.index (decodeStateID d.Id) "project_id") 0 with
      | panicked =>
        have hw := wait_of_panic
          (updateStateConf conn (StringMap.index (decodeStateID d.Id) "project_id")) ctx hd hr
        refine ⟨_, hw, by simp, rfl, rfl, ?_, hUpd _ hw⟩
        intro elapsed h
        cases h
      | returned r =>
        rcases refresh_states conn _ 0 r hr with h | h | h
        · have hw := wait_of_target
            (updateStateConf conn (StringMap.index (decodeStateID d.Id) "project_id")) ctx
            r hd hr h.2 (by rw [h.1]; simp [updateStateConf])
            (by rw [h.1]; simp [updateStateConf])
          refine ⟨_, hw, by simp, rfl, rfl, ?_, hUpd _ hw⟩
          intro elapsed h
          cases h
        · obtain ⟨cause, hc⟩ := h.2
          have hw := wait_of_failure
            (updateStateConf conn (StringMap.index (decodeStateID d.Id) "project_id")) ctx
            r cause hd hr hc
          refine ⟨_, hw, by simp, rfl, rfl, ?_, hUpd _ hw⟩
          intro elapsed h
          cases h
        · have hw := wait_of_unexpected
            (updateStateConf conn (StringMap.index (decodeStateID d.Id) "project_id")) ctx
            r hd hr h.2 (by rw [h.1]; simp [updateStateConf])
            (by rw [h.1]; simp [updateStateConf])
          refine ⟨_, hw, by simp, rfl, rfl, ?_, hUpd _ hw⟩
          intro elapsed h
          cases h

/-! Import -/

/-- The regional-mode import of this file: for every imported identifier whose
status query succeeds with a setting, it returns exactly one state with that
project, that value of `enabled` and the encoded identifier, and no error; when
the status query fails it returns an error and no state. -/
theorem regional_mode_import_state (encodeStateID : StringMap → String)
    (d : ResourceData) (conn : PrivateEndpointsService) :
    (∀ e : Bool,
        (conn.GetRegionalizedPrivateEndpointSetting 0 d.Id).err = none →
        (conn.GetRegionalizedPrivateEndpointSetting 0 d.Id).setting = some ⟨e⟩ →
        resourceMongoDBAtlasPrivateEndpointRegionalModeImportState encodeStateID d conn
          = .returned
              ([⟨encodeStateID [("project_id", d.Id)], some d.Id, some e⟩], none)) ∧
      (∀ err : GoError,
        (conn.GetRegionalizedPrivateEndpointSetting 0 d.Id).err = some err →
        resourceMongoDBAtlasPrivateEndpointRegionalModeImportState encodeStateID d conn
          = .returned ([], some (.errorf .importRegionalMode [d.Id] err))) := by
  constructor
  · intro e hErr hSet
    simp [resourceMongoDBAtlasPrivateEndpointRegionalModeImportState, hErr, hSet,
      ResourceData.Set, ResourceData.SetId]
  · intro err hErr
    simp [resourceMongoDBAtlasPrivateEndpointRegionalModeImportState, hErr]

/-- C8, the code: the import operation that the resource definition exposes is
`resourceMongoDBAtlasPrivateLinkEndpointImportState`, the import of the private
link endpoint resource, and not the regional-mode import of this file, which
would return the state of project `p` with the encoded identifier. -/
theorem importer_is_not_regional_mode_import :
    resourceMongoDBAtlasPrivateEndpointRegionalMode.Importer.StateContext
        = .resourceMongoDBAtlasPrivateLinkEndpointImportState ∧
      resourceMongoDBAtlasPrivateEndpointRegionalMode.Importer.StateContext
        ≠ .resourceMongoDBAtlasPrivateEndpointRegionalModeImportState ∧
      resourceMongoDBAtlasPrivateEndpointRegionalModeImportState plainEncode
          ⟨"p", none, none⟩ (clientOf (fun _ => answerOk true) (answerOk true))
        = .returned ([⟨"project_id:p", some "p", some true⟩], none) := by
  decide

end RegionalMode
